import Mathlib

/-!
Shallow embedding of the cash-flow tracker's Aggregator and Report Filter
(`src/App.tsx`) together with its data model (`Transaction`, `FinancialSummary`,
`ReportFilters` from the types module).

Modelling conventions:
* A transaction's `date` field is an ISO string in the source; the filter logic
  only ever uses `new Date(t.date).getTime()`, so we model the date directly as
  the resulting instant: an `Int` of milliseconds since the epoch (UTC).
* `ReportFilters.startDate` / `endDate` are `"YYYY-MM-DD"` strings denoting
  calendar days; `new Date("YYYY-MM-DD").getTime()` is the UTC midnight of that
  day, so we model them as `Int` epoch-day numbers and multiply by the number
  of milliseconds per day where the source parses them.  The session timezone
  is modelled as UTC, so `setHours(23, 59, 59, 999)` lands on the same
  calendar day and adds `86399999` ms to its midnight.
* `amount` is a monetary magnitude; we model it with exact integer arithmetic.
* `Array.prototype.filter`/`reduce`/`sort` become `List.filter`/`List.foldl`/
  `List.mergeSort`.  JavaScript's `sort` is a stable sort (ECMA-262), which is
  exactly what `List.mergeSort` implements.
-/

/-- `type TransactionType = 'income' | 'expense'` from the types module. -/
inductive TransactionType where
  | income
  | expense
deriving DecidableEq, Repr

/-- The type of `ReportFilters.type`: `'all' | 'income' | 'expense'`. -/
inductive FilterType where
  | all
  | income
  | expense
deriving DecidableEq, Repr

/-- The string value a `TransactionType` carries at runtime, as a `FilterType`,
so that the source's `t.type === reportFilters.type` string comparison can be
expressed. -/
def TransactionType.toFilterType : TransactionType → FilterType
  | .income => .income
  | .expense => .expense

/-- `interface Transaction` from the types module.  `date` is modelled as the
instant `new Date(t.date).getTime()` in milliseconds since the epoch. -/
structure Transaction where
  id : String
  date : Int
  description : String
  amount : Int
  type : TransactionType
  category : String
deriving DecidableEq, Repr

/-- `interface FinancialSummary` from the types module. -/
structure FinancialSummary where
  totalIncome : Int
  totalExpense : Int
  balance : Int
deriving DecidableEq, Repr

/-- `interface ReportFilters` from the types module.  `startDate` / `endDate`
are `"YYYY-MM-DD"` strings in the source, modelled as epoch-day numbers. -/
structure ReportFilters where
  startDate : Int
  endDate : Int
  type : FilterType
  category : String
deriving DecidableEq, Repr

/-- Milliseconds in one calendar day. -/
def msPerDay : Int := 86400000

/-- The Aggregator: the `summary` memo of `App.tsx` (lines 91-99).
`income` and `expense` are `transactions.filter(...).reduce((acc, t) => acc +
t.amount, 0)` over the whole collection. -/
def summarize (transactions : List Transaction) : FinancialSummary :=
  let income := (transactions.filter fun t => t.type == TransactionType.income).foldl
    (fun acc t => acc + t.amount) 0
  let expense := (transactions.filter fun t => t.type == TransactionType.expense).foldl
    (fun acc t => acc + t.amount) 0
  { totalIncome := income
    totalExpense := expense
    balance := income - expense }

/-- The per-transaction predicate of the `reportData` memo (`App.tsx` lines
106-117): `tDate` is the transaction's instant, `sDate` the UTC midnight of
`startDate`, and `eDate` the instant of `endDate` after
`setHours(23, 59, 59, 999)`. -/
def matchesReport (filters : ReportFilters) (t : Transaction) : Bool :=
  let tDate := t.date
  let sDate := filters.startDate * msPerDay
  let eDate := filters.endDate * msPerDay + 86399999
  let dateMatch := decide (sDate ≤ tDate) && decide (tDate ≤ eDate)
  let typeMatch := filters.type == FilterType.all || t.type.toFilterType == filters.type
  let catMatch := filters.category == "all" || t.category == filters.category
  dateMatch && typeMatch && catMatch

/-- The comparator of `reportData`'s `.sort((a, b) => new Date(a.date).getTime()
- new Date(b.date).getTime())`, turned into the boolean order `a` may precede
`b`. -/
def dateLe (a b : Transaction) : Bool := decide (a.date ≤ b.date)

/-- The Report Filter: the `reportData` memo of `App.tsx` (lines 105-119).
`transactions.filter(...)` keeps the matching transactions and the stable
`.sort` orders the fresh filtered array ascending by date instant. -/
def reportData (transactions : List Transaction) (filters : ReportFilters) :
    List Transaction :=
  (transactions.filter (matchesReport filters)).mergeSort dateLe

/-- The report's period income total (`App.tsx` lines 561-563):
`reportData.filter(t => t.type === 'income').reduce((acc, t) => acc + t.amount, 0)`. -/
def reportIncome (transactions : List Transaction) (filters : ReportFilters) : Int :=
  ((reportData transactions filters).filter fun t => t.type == TransactionType.income).foldl
    (fun acc t => acc + t.amount) 0

/-- The report's period expense total (`App.tsx` lines 564-566):
`reportData.filter(t => t.type === 'expense').reduce((acc, t) => acc + t.amount, 0)`. -/
def reportExpense (transactions : List Transaction) (filters : ReportFilters) : Int :=
  ((reportData transactions filters).filter fun t => t.type == TransactionType.expense).foldl
    (fun acc t => acc + t.amount) 0

/-!
Heap-level model for the mutation claim.  In the source, `transactions` is a
JavaScript array held in React state; `Array.prototype.filter` allocates a
fresh array (ECMA-262), `Array.prototype.reduce` only reads, and
`Array.prototype.sort` sorts its receiver in place.  We track the arrays
through a heap of references so that "the input collection is not mutated"
becomes a statement about the heap cell holding `transactions`.
-/

/-- A heap of JavaScript transaction arrays: `size` references have been
allocated so far and `mem r` is the array stored at reference `r`. -/
structure Heap where
  size : Nat
  mem : Nat → List Transaction

/-- Read the array at reference `r`. -/
def Heap.get (σ : Heap) (r : Nat) : List Transaction := σ.mem r

/-- Allocate a fresh array holding `xs`, as `Array.prototype.filter` does for
its result, returning the new heap and the fresh reference. -/
def Heap.alloc (σ : Heap) (xs : List Transaction) : Heap × Nat :=
  ({ size := σ.size + 1, mem := fun i => if i = σ.size then xs else σ.mem i }, σ.size)

/-- Overwrite the array at reference `r`, as `Array.prototype.sort` does to
its receiver. -/
def Heap.write (σ : Heap) (r : Nat) (xs : List Transaction) : Heap :=
  { size := σ.size, mem := fun i => if i = r then xs else σ.mem i }

/-- Heap-level model of the `summary` memo (`App.tsx` lines 91-99): each of
the two `.filter` calls allocates a fresh array and `.reduce` only reads from
it; `r` is the reference of the `transactions` array. -/
def summarizeHeap (σ : Heap) (r : Nat) : Heap × FinancialSummary :=
  let a1 := σ.alloc ((σ.get r).filter fun t => t.type == TransactionType.income)
  let income := (a1.1.get a1.2).foldl (fun acc t => acc + t.amount) 0
  let a2 := a1.1.alloc ((a1.1.get r).filter fun t => t.type == TransactionType.expense)
  let expense := (a2.1.get a2.2).foldl (fun acc t => acc + t.amount) 0
  (a2.1, { totalIncome := income, totalExpense := expense, balance := income - expense })

/-- Heap-level model of the `reportData` memo (`App.tsx` lines 105-119):
`transactions.filter(...)` allocates a fresh array, and `.sort(...)` sorts
that fresh array in place and hands back its reference. -/
def reportDataHeap (σ : Heap) (r : Nat) (filters : ReportFilters) : Heap × Nat :=
  let a := σ.alloc ((σ.get r).filter (matchesReport filters))
  (a.1.write a.2 ((a.1.get a.2).mergeSort dateLe), a.2)

/-!
Model of the initial `reportFilters` state (`App.tsx` lines 52-57).  The
source builds two `"YYYY-MM-DD"` strings:
`new Date(new Date().getFullYear(), new Date().getMonth(), 1).toISOString().split('T')[0]`
and `new Date().toISOString().split('T')[0]`.  The session timezone is
modelled as UTC, under which `toISOString().split('T')[0]` of a date
constructed from in-range calendar components denotes exactly those
components' calendar day.
-/

/-- A calendar day as denoted by a `"YYYY-MM-DD"` string: year, zero-based
month (the convention of JavaScript's `getMonth` and the `Date` constructor),
and day of month. -/
structure CalendarDay where
  year : Int
  month : Int
  day : Int
deriving DecidableEq, Repr

/-- `new Date(year, month, day).toISOString().split('T')[0]` for in-range
calendar components, under the UTC session model: the calendar day with those
components (the `Date` constructor performs no normalization in range). -/
def isoDayOfCtor (year month day : Int) : CalendarDay :=
  { year := year, month := month, day := day }

/-- The initial `reportFilters` record, with its two dates as calendar days. -/
structure ReportFiltersInit where
  startDate : CalendarDay
  endDate : CalendarDay
  type : FilterType
  category : String
deriving DecidableEq, Repr

/-- The `useState` initializer of `reportFilters` (`App.tsx` lines 52-57),
where `now` is the calendar day of the current instant: `startDate` is built
from `getFullYear()`, `getMonth()` and the literal day `1`, `endDate` is
today's ISO date part, and type and category start at their wildcard
sentinels. -/
def initialReportFilters (now : CalendarDay) : ReportFiltersInit :=
  { startDate := isoDayOfCtor now.year now.month 1
    endDate := isoDayOfCtor now.year now.month now.day
    type := FilterType.all
    category := "all" }

/-!
Concrete sample data used by the witness theorems.
-/

/-- A transaction at 23:00 of epoch day 0. -/
def eveningTx : Transaction :=
  { id := "t1", date := 82800000, description := "venda tarde", amount := 50
    type := TransactionType.income, category := "7.1 - Vendas" }

/-- A transaction at 00:01 of epoch day 1. -/
def nextDayTx : Transaction :=
  { id := "t2", date := 86460000, description := "compra manhã", amount := 20
    type := TransactionType.expense, category := "Outros" }

/-- A second transaction at 23:00 of epoch day 0, distinct from `eveningTx`. -/
def eveningTx2 : Transaction :=
  { id := "t3", date := 82800000, description := "venda tarde 2", amount := 30
    type := TransactionType.income, category := "7.2 - Prestações de Serviços" }

/-- A one-cell heap whose reference 0 holds a two-transaction array. -/
def sampleHeap : Heap :=
  { size := 1, mem := fun i => if i = 0 then [eveningTx, nextDayTx] else [] }

/-- The all-pass filter over epoch days 0 to 1. -/
def wideFilters : ReportFilters :=
  { startDate := 0, endDate := 1, type := FilterType.all, category := "all" }

/-!
Helper lemmas shared by the claim theorems.
-/

/-- `reduce((acc, t) => acc + t.amount, init)` is `init` plus the sum of the
amounts. -/
theorem foldl_add_amount (l : List Transaction) (init : Int) :
    l.foldl (fun acc t => acc + t.amount) init = init + (l.map Transaction.amount).sum := by
  induction l generalizing init with
  | nil => simp
  | cons a l ih => simp [List.foldl_cons, ih]; ring

/-- Transitivity of the report sort order. -/
theorem dateLe_trans (a b c : Transaction) (hab : dateLe a b) (hbc : dateLe b c) :
    dateLe a c := by
  simp only [dateLe, decide_eq_true_eq] at *
  omega

/-- Totality of the report sort order. -/
theorem dateLe_total (a b : Transaction) : dateLe a b || dateLe b a := by
  simp only [dateLe, Bool.or_eq_true, decide_eq_true_eq]
  omega

/-- Membership in the report output, with the three clauses of the filtering
predicate spelled out. -/
theorem mem_reportData (T : List Transaction) (F : ReportFilters) (t : Transaction) :
    t ∈ reportData T F ↔
      t ∈ T ∧
        (F.startDate * msPerDay ≤ t.date ∧ t.date ≤ F.endDate * msPerDay + 86399999) ∧
        (F.type = FilterType.all ∨ t.type.toFilterType = F.type) ∧
        (F.category = "all" ∨ t.category = F.category) := by
  unfold reportData
  rw [List.mem_mergeSort, List.mem_filter]
  unfold matchesReport
  simp [and_assoc]

/-!
Claim theorems.
-/

/-- C1: a transaction `t` of `T` is in the report-filter output exactly when
its date instant lies in the inclusive range from `startDate` at 00:00:00 to
`endDate` at 23:59:59.999, its type matches (`all` is a wildcard), and its
category matches by exact string comparison (`"all"` is a wildcard, bypassing
the comparison for any category value): no matching transaction is excluded
and no non-matching one is included. -/
theorem report_filter_sound_complete (T : List Transaction) (F : ReportFilters)
    (t : Transaction) :
    t ∈ reportData T F ↔
      t ∈ T ∧
        (F.startDate * msPerDay ≤ t.date ∧ t.date ≤ F.endDate * msPerDay + 86399999) ∧
        (F.type = FilterType.all ∨ t.type.toFilterType = F.type) ∧
        (F.category = "all" ∨ t.category = F.category) :=
  mem_reportData T F t

/-- C2: with `startDate = endDate = D`, a transaction of `T` dated at any
instant of calendar day `D` is included and a transaction dated after the last
instant (`D`'s midnight plus 86399999 ms, i.e. 23:59:59.999) is excluded: the
end boundary of the date clause is the last instant of `endDate`'s calendar
day. -/
theorem report_end_of_day_boundary (T : List Transaction) (D : Int) (t : Transaction)
    (ht : t ∈ T) :
    (D * msPerDay ≤ t.date ∧ t.date ≤ D * msPerDay + 86399999 →
        t ∈ reportData T
          { startDate := D, endDate := D, type := FilterType.all, category := "all" }) ∧
    (D * msPerDay + 86399999 < t.date →
        t ∉ reportData T
          { startDate := D, endDate := D, type := FilterType.all, category := "all" }) := by
  constructor
  · intro hd
    rw [mem_reportData]
    exact ⟨ht, hd, Or.inl rfl, Or.inl rfl⟩
  · intro hd hmem
    rw [mem_reportData] at hmem
    obtain ⟨-, ⟨-, h2⟩, -, -⟩ := hmem
    dsimp only at h2
    omega

/-- Witness for C2 at day `D = 0`: the 23:00 transaction is included and the
next-day 00:01 transaction is excluded. -/
theorem report_end_of_day_boundary_witness :
    eveningTx ∈ [eveningTx, nextDayTx] ∧ nextDayTx ∈ [eveningTx, nextDayTx] ∧
      eveningTx ∈ reportData [eveningTx, nextDayTx]
        { startDate := 0, endDate := 0, type := FilterType.all, category := "all" } ∧
      nextDayTx ∉ reportData [eveningTx, nextDayTx]
        { startDate := 0, endDate := 0, type := FilterType.all, category := "all" } := by
  refine ⟨by decide, by decide, ?_, ?_⟩
  · exact (report_end_of_day_boundary [eveningTx, nextDayTx] 0 eveningTx (by decide)).1
      (by decide)
  · exact (report_end_of_day_boundary [eveningTx, nextDayTx] 0 nextDayTx (by decide)).2
      (by decide)

/-- C3: the report-filter output is sorted ascending by date instant (oldest
first), for every collection and every filter. -/
theorem report_sorted_ascending (T : List Transaction) (F : ReportFilters) :
    (reportData T F).Pairwise fun a b => a.date ≤ b.date := by
  have h := @List.sorted_mergeSort Transaction dateLe dateLe_trans dateLe_total
    (T.filter (matchesReport F))
  exact h.imp fun hab => by simpa [dateLe] using hab

/-- C4: the report's two period totals equal the Aggregator's income and
expense rules applied to the filtered sequence, i.e. the sums of `amount` over
the filtered transactions of type income resp. expense — scoped to the
filtered subset. -/
theorem report_totals_match_aggregator (T : List Transaction) (F : ReportFilters) :
    reportIncome T F = (summarize (reportData T F)).totalIncome ∧
    reportExpense T F = (summarize (reportData T F)).totalExpense ∧
    reportIncome T F =
      (((reportData T F).filter fun t => t.type == TransactionType.income).map
        Transaction.amount).sum ∧
    reportExpense T F =
      (((reportData T F).filter fun t => t.type == TransactionType.expense).map
        Transaction.amount).sum := by
  refine ⟨rfl, rfl, ?_, ?_⟩ <;> simp [reportIncome, reportExpense, foldl_add_amount]

/-- C5: `summarize` returns the sum of `amount` over the income transactions,
the sum over the expense transactions, and their difference as the balance;
the empty collection yields the all-zero summary. -/
theorem summarize_totals_correct (T : List Transaction) :
    (summarize T).totalIncome =
      ((T.filter fun t => t.type == TransactionType.income).map Transaction.amount).sum ∧
    (summarize T).totalExpense =
      ((T.filter fun t => t.type == TransactionType.expense).map Transaction.amount).sum ∧
    (summarize T).balance = (summarize T).totalIncome - (summarize T).totalExpense ∧
    summarize [] = { totalIncome := 0, totalExpense := 0, balance := 0 } := by
  refine ⟨?_, ?_, rfl, rfl⟩ <;> simp [summarize, foldl_add_amount]

/-- C6: when `startDate` is a calendar day strictly after `endDate`, the
report output is empty for every collection: the date conjunction is false for
every transaction, with no special-case rejection and no swapping of the
bounds. -/
theorem report_inverted_range_empty (T : List Transaction) (F : ReportFilters)
    (h : F.endDate < F.startDate) : reportData T F = [] := by
  unfold reportData
  have hf : T.filter (matchesReport F) = [] := by
    rw [List.filter_eq_nil_iff]
    intro t ht
    simp only [matchesReport, msPerDay, Bool.and_eq_true, decide_eq_true_eq]
    rintro ⟨⟨⟨h1, h2⟩, -⟩, -⟩
    omega
  rw [hf, List.mergeSort_nil]

/-- Witness for C6: an inverted range (day 3 down to day 1) empties the
report. -/
theorem report_inverted_range_empty_witness :
    (1 : Int) < 3 ∧
      reportData [eveningTx, nextDayTx]
        { startDate := 3, endDate := 1, type := FilterType.all, category := "all" } = [] :=
  ⟨by decide, report_inverted_range_empty _ _ (by decide)⟩

/-- C7: `summarize` is invariant under permutation of the input collection. -/
theorem summarize_perm_invariant (T T' : List Transaction) (h : T'.Perm T) :
    summarize T' = summarize T := by
  have key : ∀ p : Transaction → Bool,
      (T'.filter p).foldl (fun acc t => acc + t.amount) 0 =
        (T.filter p).foldl (fun acc t => acc + t.amount) 0 := by
    intro p
    rw [foldl_add_amount, foldl_add_amount, ((h.filter p).map Transaction.amount).sum_eq]
  simp only [summarize, key]

/-- Witness for C7: swapping the two sample transactions leaves the summary
unchanged. -/
theorem summarize_perm_invariant_witness :
    [nextDayTx, eveningTx].Perm [eveningTx, nextDayTx] ∧
      summarize [nextDayTx, eveningTx] = summarize [eveningTx, nextDayTx] :=
  ⟨List.Perm.swap eveningTx nextDayTx [],
    summarize_perm_invariant _ _ (List.Perm.swap eveningTx nextDayTx [])⟩

/-- C8: neither the Aggregator nor the Report Filter mutates the input
collection: in the heap model where `filter` allocates fresh arrays and
`sort` mutates its receiver in place, the heap cell holding `transactions`
(its elements and their order) is unchanged by both computations. -/
theorem inputs_not_mutated (σ : Heap) (r : Nat) (F : ReportFilters) (h : r < σ.size) :
    (summarizeHeap σ r).1.get r = σ.get r ∧
    (reportDataHeap σ r F).1.get r = σ.get r := by
  have h1 : ¬r = σ.size := by omega
  have h2 : ¬r = σ.size + 1 := by omega
  constructor <;>
    simp [summarizeHeap, reportDataHeap, Heap.get, Heap.alloc, Heap.write, h1, h2]

/-- Witness for C8 on a one-cell heap holding the two sample transactions. -/
theorem inputs_not_mutated_witness :
    0 < sampleHeap.size ∧
      (summarizeHeap sampleHeap 0).1.get 0 = sampleHeap.get 0 ∧
      (reportDataHeap sampleHeap 0 wideFilters).1.get 0 = sampleHeap.get 0 :=
  ⟨by decide, inputs_not_mutated sampleHeap 0 wideFilters (by decide)⟩

/-- C9: the initial `ReportFilters` value has `startDate` the first day of the
current calendar month, `endDate` today's calendar day, and both `type` and
`category` at their `all` wildcard sentinels. -/
theorem initial_filters_default_window (now : CalendarDay) :
    (initialReportFilters now).startDate =
      { year := now.year, month := now.month, day := 1 } ∧
    (initialReportFilters now).endDate = now ∧
    (initialReportFilters now).type = FilterType.all ∧
    (initialReportFilters now).category = "all" :=
  ⟨rfl, rfl, rfl, rfl⟩

/-- C10: transactions with equal date instants keep their relative input
order in the report output: if `a` precedes `b` in `T`, their dates are equal
and both pass the filter, then `a` still precedes `b` in the output (the
comparator returns 0 on equal instants and the sort is stable). -/
theorem report_sort_stable_on_equal_dates (T : List Transaction) (F : ReportFilters)
    (a b : Transaction) (hdate : a.date = b.date) (hsub : [a, b].Sublist T)
    (ha : matchesReport F a = true) (hb : matchesReport F b = true) :
    [a, b].Sublist (reportData T F) := by
  unfold reportData
  apply List.pair_sublist_mergeSort dateLe_trans dateLe_total
  · simp [dateLe, hdate]
  · have hfil := hsub.filter (matchesReport F)
    simpa [List.filter_cons, ha, hb] using hfil

/-- Witness for C10: the two same-instant sample transactions keep their
input order in the report. -/
theorem report_sort_stable_on_equal_dates_witness :
    eveningTx.date = eveningTx2.date ∧
      [eveningTx, eveningTx2].Sublist [eveningTx, eveningTx2, nextDayTx] ∧
      [eveningTx, eveningTx2].Sublist
        (reportData [eveningTx, eveningTx2, nextDayTx] wideFilters) := by
  refine ⟨by decide, by decide, ?_⟩
  exact report_sort_stable_on_equal_dates _ wideFilters eveningTx eveningTx2
    (by decide) (by decide) (by decide) (by decide)
